import Mathlib

/-!
Verification of the adaptive task-processing subsystem of
`enhanced_autonomous_team.py` (class `EnhancedAutonomousTeam`):
the task queue, the worker loop, the dispatcher, the metrics block and
the scaling policy.  Every definition below is a shallow embedding of the
corresponding Python method; line references point into
`src/enhanced_autonomous_team.py`.
-/

namespace EnhancedAutonomousTeam

/-- A task dict as enqueued by `add_task`.  The worker and dispatcher only
inspect `task.get('type')` and, for `github_sync`, `task.get('repo_path')`
and `task.get('remote_url')`; `dict.get` of a missing key is `none`. -/
structure Task where
  type : Option String
  repoPath : Option String
  remoteUrl : Option String
  deriving DecidableEq, Repr

/-- An element of `self.task_queue`: either a task dict or the `None`
sentinel enqueued by `scale_down` / `cleanup` (lines 141, 249). -/
inductive QItem where
  | task (t : Task)
  | stop
  deriving DecidableEq, Repr

/-- `self.performance_metrics` (lines 52-56). -/
structure Metrics where
  tasks_completed : Nat
  tasks_failed : Nat
  optimization_cycles : Nat
  deriving DecidableEq, Repr

/-- The mutable state of the team outside the queue contents:
`worker_threads` (we keep its length, `workerList`, which is what the
scaler reads, and separately `liveWorkers`, the number of worker loops
still running — `scale_down` pops the handle list immediately while the
loop of some worker only exits later, when a `None` is consumed),
`task_queue.unfinished_tasks` (incremented by every `put`, decremented by
`task_done`), the metrics dict, and `executedLog`, a ghost trace of the
tasks passed to `execute_task`, in order, used to state the
exactly-once property. -/
structure PoolState where
  workerList : Nat
  liveWorkers : Nat
  unfinished : Nat
  metrics : Metrics
  executedLog : List Task
  deriving DecidableEq, Repr

/-- Python truthiness of an optional string (`if self.github_manager and
repo_path:` — `None` and `""` are falsy). -/
def truthyStr : Option String → Bool
  | none => false
  | some s => s ≠ ""

/-- Outcome of running a piece of Python code: it returns normally or
raises an exception. -/
inductive ExecOutcome where
  | ok
  | raised (msg : String)
  deriving DecidableEq, Repr

/-- The external world as seen by `sync_with_github` (lines 211-231):
whether `self.github_manager` was initialized, the stdout of
`git remote`, and whether each of the three calls inside the `try`
block raises.  `git push` run without `check=True` only raises for
environmental reasons (e.g. missing cwd); `push_changes` re-raises
`CalledProcessError` when the push to the remote fails
(`github_manager.py`, lines 50-54). -/
structure SyncEnv where
  githubManagerAvailable : Bool
  gitRemoteStdout : String
  gitRemoteRaises : Bool
  pushChangesRaises : Bool
  gitPushRaises : Bool
  deriving DecidableEq, Repr

/-- The body of the `try` block of `sync_with_github` (lines 219-227):
`git remote`, optionally `git remote add origin`, then
`github_manager.push_changes`, then `git push -u origin main`.
The first call that raises aborts the block with that exception. -/
def syncTryBody (env : SyncEnv) : ExecOutcome :=
  if env.gitRemoteRaises then .raised "git remote failed"
  else if env.pushChangesRaises then .raised "push_changes: CalledProcessError"
  else if env.gitPushRaises then .raised "git push failed"
  else .ok

/-- `sync_with_github` (lines 211-231).  When the manager is available and
`repo_path` is truthy it runs `syncTryBody`; the `except Exception`
clause (lines 228-229) catches ANY exception raised there and only
prints, so the method always returns normally. -/
def sync_with_github (env : SyncEnv) (task : Task) : ExecOutcome :=
  if env.githubManagerAvailable && truthyStr task.repoPath then
    match syncTryBody env with
    | .ok => .ok
    | .raised _ => .ok
  else
    .ok

/-- `execute_task` (lines 163-180): an `if`/`elif` chain on
`task.get('type')`.  `review_code`, `run_tests`, `deploy_changes`,
`monitor_repositories` and `handle_development_task` only read the dict
and print (lines 182-209, 233-237), so they return normally; a type
matching no branch falls through and returns `None`. -/
def execute_task (env : SyncEnv) (task : Task) : ExecOutcome :=
  if task.type = some "code_review" then .ok
  else if task.type = some "testing" then .ok
  else if task.type = some "deployment" then .ok
  else if task.type = some "github_sync" then sync_with_github env task
  else if task.type = some "monitoring" then .ok
  else if task.type = some "development" then .ok
  else .ok

/-- One iteration of the worker loop of `add_worker` (lines 146-157) on a
dequeued item.  `None` breaks out of the loop: the worker stops and —
note — `task_done` is NOT called for the sentinel.  A task is passed to
`execute_task` inside `try`: on normal return `tasks_completed` is
incremented, on an exception `tasks_failed` is, and the `finally`
clause calls `task_done` either way. -/
def consume (exec : Task → ExecOutcome) (item : QItem) (s : PoolState) : PoolState :=
  match item with
  | .stop => { s with liveWorkers := s.liveWorkers - 1 }
  | .task t =>
    let s := { s with executedLog := s.executedLog ++ [t] }
    let s :=
      match exec t with
      | .ok =>
        { s with metrics := { s.metrics with
            tasks_completed := s.metrics.tasks_completed + 1 } }
      | .raised _ =>
        { s with metrics := { s.metrics with
            tasks_failed := s.metrics.tasks_failed + 1 } }
    { s with unfinished := s.unfinished - 1 }

/-- The workers draining the queue: each listed item is dequeued by some
live worker (`task_queue.get()` hands each item to exactly one caller)
and consumed; with no live worker left nothing further is dequeued. -/
def runPool (exec : Task → ExecOutcome) : List QItem → PoolState → PoolState
  | [], s => s
  | item :: rest, s =>
    if s.liveWorkers = 0 then s
    else runPool exec rest (consume exec item s)

/-- `add_task` (lines 239-242): `task_queue.put(task)`; every `put` also
increments `unfinished_tasks`. -/
def add_task (t : Task) (q : List QItem) (s : PoolState) : List QItem × PoolState :=
  (q ++ [.task t], { s with unfinished := s.unfinished + 1 })

/-- `add_worker` (lines 143-161): start a worker thread and append its
handle to `worker_threads`. -/
def add_worker (s : PoolState) : PoolState :=
  { s with workerList := s.workerList + 1, liveWorkers := s.liveWorkers + 1 }

/-- `for _ in range(n): self.add_worker()`. -/
def addWorkers : Nat → PoolState → PoolState
  | 0, s => s
  | n + 1, s => addWorkers n (add_worker s)

/-- `scale_up` (lines 125-130): `new_workers = min(5, qsize())`, then that
many `add_worker()` calls. -/
def scale_up (q : List QItem) (s : PoolState) : PoolState :=
  addWorkers (min 5 q.length) s

/-- `scale_down` (lines 132-141): `excess = len(worker_threads) -
max(1, qsize())`; if positive, pop that many handles from
`worker_threads` and `put(None)` once per pop (each `put` increments
`unfinished_tasks`).  `excess ≤ len(worker_threads)` always, so every
pop succeeds; Nat subtraction coincides with the guarded Python
arithmetic. -/
def scale_down (q : List QItem) (s : PoolState) : List QItem × PoolState :=
  let excess := s.workerList - max 1 q.length
  (q ++ List.replicate excess QItem.stop,
   { s with workerList := s.workerList - excess,
            unfinished := s.unfinished + excess })

/-- `optimize_performance` (lines 109-123): read `qsize()` and
`len(worker_threads)`; if `q > 2w` scale up, elif `q < w/2` (true
division, equivalent to `2q < w` over the integers) scale down; in all
cases increment `optimization_cycles`. -/
def optimize_performance (q : List QItem) (s : PoolState) : List QItem × PoolState :=
  let queue_size := q.length
  let current_workers := s.workerList
  let qs1 :=
    if queue_size > current_workers * 2 then (q, scale_up q s)
    else if 2 * queue_size < current_workers then scale_down q s
    else (q, s)
  (qs1.1, { qs1.2 with metrics := { qs1.2.metrics with
      optimization_cycles := qs1.2.metrics.optimization_cycles + 1 } })

/-- `analyze_performance` (lines 92-107): `total = completed + failed`;
if zero, return immediately (no division, no trigger).  Otherwise
compute `success_rate = completed / total * 100` (float division,
modelled over ℚ) and, when below 90, trigger `optimize_performance`.
Returns the new queue/state and the rate that was computed, `none` on
the early return. -/
def analyze_performance (q : List QItem) (s : PoolState) :
    (List QItem × PoolState) × Option ℚ :=
  let total := s.metrics.tasks_completed + s.metrics.tasks_failed
  if total = 0 then ((q, s), none)
  else
    let success_rate : ℚ := ((s.metrics.tasks_completed : ℚ) / (total : ℚ)) * 100
    if success_rate < 90 then (optimize_performance q s, some success_rate)
    else ((q, s), some success_rate)

/-- `cleanup` (lines 244-253): one `put(None)` per entry of
`worker_threads` (each `put` increments `unfinished_tasks`), then join
each thread with a timeout. -/
def cleanup (q : List QItem) (s : PoolState) : List QItem × PoolState :=
  (q ++ List.replicate s.workerList QItem.stop,
   { s with unfinished := s.unfinished + s.workerList })

/-- Number of `None` sentinels in a list of queue items. -/
def countStops (items : List QItem) : Nat :=
  items.countP (fun i => i = QItem.stop)

/-- Number of task dicts in a list of queue items. -/
def countTasks (items : List QItem) : Nat :=
  items.countP (fun i => i ≠ QItem.stop)

lemma countTasks_add_countStops (items : List QItem) :
    countTasks items + countStops items = items.length := by
  induction items with
  | nil => rfl
  | cons i rest ih =>
    cases i <;> simp [countTasks, countStops, List.countP_cons] at * <;> omega

lemma addWorkers_workerList (n : Nat) :
    ∀ s : PoolState, (addWorkers n s).workerList = s.workerList + n := by
  induction n with
  | zero => intro s; rfl
  | succ m ih => intro s; rw [addWorkers, ih]; simp [add_worker]; omega

lemma addWorkers_liveWorkers (n : Nat) :
    ∀ s : PoolState, (addWorkers n s).liveWorkers = s.liveWorkers + n := by
  induction n with
  | zero => intro s; rfl
  | succ m ih => intro s; rw [addWorkers, ih]; simp [add_worker]; omega

lemma addWorkers_metrics (n : Nat) :
    ∀ s : PoolState, (addWorkers n s).metrics = s.metrics := by
  induction n with
  | zero => intro s; rfl
  | succ m ih => intro s; rw [addWorkers, ih]; rfl

/-- Claim C8: every invocation of `optimize_performance` increments
`optimization_cycles` by exactly 1, in the scale-up branch, the
scale-down branch and the no-action branch alike. -/
theorem optimize_increments_cycles_by_one (q : List QItem) (s : PoolState) :
    (optimize_performance q s).2.metrics.optimization_cycles =
      s.metrics.optimization_cycles + 1 := by
  unfold optimize_performance
  dsimp only
  split
  · simp [scale_up, addWorkers_metrics]
  · split
    · simp [scale_down]
    · simp

/-- Claim C4: when `q > 2w`, a scaling evaluation adds exactly
`min 5 q` worker threads (both to the handle list and as live running
loops), and in particular never more than 5, however large `q` is. -/
theorem scale_up_adds_min_five (q : List QItem) (s : PoolState)
    (h : q.length > 2 * s.workerList) :
    (optimize_performance q s).2.workerList = s.workerList + min 5 q.length ∧
    (optimize_performance q s).2.liveWorkers = s.liveWorkers + min 5 q.length ∧
    (optimize_performance q s).2.workerList ≤ s.workerList + 5 := by
  unfold optimize_performance
  dsimp only
  have hcond : q.length > s.workerList * 2 := by omega
  rw [if_pos hcond]
  refine ⟨?_, ?_, ?_⟩
  · simp only [scale_up, addWorkers_workerList]
  · simp only [scale_up, addWorkers_liveWorkers]
  · simp only [scale_up, addWorkers_workerList]
    omega

/-- Claim C3: when `q < w/2` (equivalently `2q < w`) and `w ≥ 1`, a
scaling evaluation removes exactly `w - max 1 q` workers: that many
handles are popped and that many `None` sentinels are enqueued, the
worker count is left at `max 1 q ≥ 1`, and once each sentinel has
terminated one live worker the live count is `max 1 q`, never below 1. -/
theorem scale_down_floor_one_worker (q : List QItem) (s : PoolState)
    (hw : 1 ≤ s.workerList) (h : 2 * q.length < s.workerList)
    (hsync : s.liveWorkers = s.workerList) :
    s.workerList - (optimize_performance q s).2.workerList =
      s.workerList - max 1 q.length ∧
    (optimize_performance q s).2.workerList = max 1 q.length ∧
    1 ≤ (optimize_performance q s).2.workerList ∧
    (optimize_performance q s).1 =
      q ++ List.replicate (s.workerList - max 1 q.length) QItem.stop ∧
    s.liveWorkers - (s.workerList - max 1 q.length) = max 1 q.length ∧
    1 ≤ s.liveWorkers - (s.workerList - max 1 q.length) := by
  unfold optimize_performance
  dsimp only
  have hnot : ¬ (q.length > s.workerList * 2) := by omega
  rw [if_neg hnot, if_pos h]
  unfold scale_down
  dsimp only
  refine ⟨by omega, by omega, by omega, rfl, by omega, by omega⟩

/-- Claim C9: when both counters are zero, `analyze_performance` takes the
`total == 0` early return: it reports "no data" (`none`), performs no
division, and leaves queue and state untouched. -/
theorem success_rate_no_data_when_zero (q : List QItem) (s : PoolState)
    (h1 : s.metrics.tasks_completed = 0) (h2 : s.metrics.tasks_failed = 0) :
    analyze_performance q s = ((q, s), none) := by
  unfold analyze_performance
  simp [h1, h2]

/-- A fresh pool: one worker, empty queue bookkeeping, zero metrics. -/
def freshPool : PoolState :=
  { workerList := 1, liveWorkers := 1, unfinished := 0,
    metrics := { tasks_completed := 0, tasks_failed := 0, optimization_cycles := 0 },
    executedLog := [] }

theorem success_rate_no_data_witness :
    freshPool.metrics.tasks_completed = 0 ∧ freshPool.metrics.tasks_failed = 0 ∧
    analyze_performance [] freshPool = (([], freshPool), none) :=
  ⟨rfl, rfl, success_rate_no_data_when_zero [] freshPool rfl rfl⟩

theorem scale_up_adds_min_five_witness :
    ([QItem.task ⟨some "development", none, none⟩, QItem.task ⟨some "testing", none, none⟩,
      QItem.task ⟨some "monitoring", none, none⟩] : List QItem).length > 2 * freshPool.workerList ∧
    (optimize_performance [QItem.task ⟨some "development", none, none⟩,
      QItem.task ⟨some "testing", none, none⟩,
      QItem.task ⟨some "monitoring", none, none⟩] freshPool).2.workerList = 4 :=
  ⟨by decide,
   by
    have h := scale_up_adds_min_five [QItem.task ⟨some "development", none, none⟩,
      QItem.task ⟨some "testing", none, none⟩,
      QItem.task ⟨some "monitoring", none, none⟩] freshPool (by decide)
    rw [h.1]; rfl⟩

/-- A pool of five in-sync workers with empty bookkeeping. -/
def fiveWorkerPool : PoolState :=
  { workerList := 5, liveWorkers := 5, unfinished := 0,
    metrics := { tasks_completed := 0, tasks_failed := 0, optimization_cycles := 0 },
    executedLog := [] }

lemma consume_stop (exec : Task → ExecOutcome) (s : PoolState) :
    consume exec QItem.stop s = { s with liveWorkers := s.liveWorkers - 1 } := rfl

lemma consume_task_ok (exec : Task → ExecOutcome) (t : Task) (s : PoolState)
    (h : exec t = .ok) :
    consume exec (QItem.task t) s =
      { s with executedLog := s.executedLog ++ [t],
               metrics := { s.metrics with
                 tasks_completed := s.metrics.tasks_completed + 1 },
               unfinished := s.unfinished - 1 } := by
  simp only [consume, h]

lemma consume_task_raised (exec : Task → ExecOutcome) (t : Task) (s : PoolState)
    (e : String) (h : exec t = .raised e) :
    consume exec (QItem.task t) s =
      { s with executedLog := s.executedLog ++ [t],
               metrics := { s.metrics with
                 tasks_failed := s.metrics.tasks_failed + 1 },
               unfinished := s.unfinished - 1 } := by
  simp only [consume, h]

lemma consume_task_liveWorkers (exec : Task → ExecOutcome) (t : Task) (s : PoolState) :
    (consume exec (QItem.task t) s).liveWorkers = s.liveWorkers := by
  cases h : exec t
  · rw [consume_task_ok exec t s h]
  · rw [consume_task_raised exec t s _ h]

lemma consume_task_unfinished (exec : Task → ExecOutcome) (t : Task) (s : PoolState) :
    (consume exec (QItem.task t) s).unfinished = s.unfinished - 1 := by
  cases h : exec t
  · rw [consume_task_ok exec t s h]
  · rw [consume_task_raised exec t s _ h]

lemma consume_task_log (exec : Task → ExecOutcome) (t : Task) (s : PoolState) :
    (consume exec (QItem.task t) s).executedLog = s.executedLog ++ [t] := by
  cases h : exec t
  · rw [consume_task_ok exec t s h]
  · rw [consume_task_raised exec t s _ h]

lemma consume_task_counter_sum (exec : Task → ExecOutcome) (t : Task) (s : PoolState) :
    (consume exec (QItem.task t) s).metrics.tasks_completed +
      (consume exec (QItem.task t) s).metrics.tasks_failed =
      s.metrics.tasks_completed + s.metrics.tasks_failed + 1 := by
  cases h : exec t
  · rw [consume_task_ok exec t s h]
    show s.metrics.tasks_completed + 1 + s.metrics.tasks_failed = _
    omega
  · rw [consume_task_raised exec t s _ h]
    show s.metrics.tasks_completed + (s.metrics.tasks_failed + 1) = _
    omega

lemma runPool_cons (exec : Task → ExecOutcome) (i : QItem) (rest : List QItem)
    (s : PoolState) (h : s.liveWorkers ≠ 0) :
    runPool exec (i :: rest) s = runPool exec rest (consume exec i s) := by
  rw [runPool, if_neg h]

lemma runPool_map_task (exec : Task → ExecOutcome) :
    ∀ (ts : List Task) (s : PoolState), 1 ≤ s.liveWorkers →
      (runPool exec (ts.map QItem.task) s).executedLog = s.executedLog ++ ts ∧
      (runPool exec (ts.map QItem.task) s).metrics.tasks_completed +
        (runPool exec (ts.map QItem.task) s).metrics.tasks_failed =
        s.metrics.tasks_completed + s.metrics.tasks_failed + ts.length ∧
      (runPool exec (ts.map QItem.task) s).unfinished = s.unfinished - ts.length ∧
      (runPool exec (ts.map QItem.task) s).liveWorkers = s.liveWorkers := by
  intro ts
  induction ts with
  | nil => intro s h; simp [runPool]
  | cons t rest ih =>
    intro s h
    have hne : s.liveWorkers ≠ 0 := by omega
    rw [List.map_cons, runPool_cons exec _ _ s hne]
    have hlc := consume_task_liveWorkers exec t s
    obtain ⟨e1, e2, e3, e4⟩ := ih (consume exec (QItem.task t) s) (by omega)
    refine ⟨?_, ?_, ?_, ?_⟩
    · rw [e1, consume_task_log]; simp
    · rw [e2, consume_task_counter_sum]; simp only [List.length_cons]; omega
    · rw [e3, consume_task_unfinished]; simp only [List.length_cons]; omega
    · rw [e4, hlc]

lemma runPool_replicate_stop (exec : Task → ExecOutcome) :
    ∀ (n : Nat) (s : PoolState), s.liveWorkers = n →
      runPool exec (List.replicate n QItem.stop) s = { s with liveWorkers := 0 } := by
  intro n
  induction n with
  | zero =>
    intro s h
    cases s with
    | mk a b c d e => simp at h; subst h; rfl
  | succ m ih =>
    intro s h
    have hne : s.liveWorkers ≠ 0 := by omega
    have h2 : ({ s with liveWorkers := s.liveWorkers - 1 } : PoolState).liveWorkers = m := by
      show s.liveWorkers - 1 = m; omega
    rw [List.replicate_succ, runPool_cons exec _ _ s hne, consume_stop, ih _ h2]

lemma runPool_unfinished_live (exec : Task → ExecOutcome) :
    ∀ (items : List QItem) (s : PoolState), countStops items < s.liveWorkers →
      (runPool exec items s).unfinished = s.unfinished - countTasks items ∧
      (runPool exec items s).liveWorkers = s.liveWorkers - countStops items := by
  intro items
  induction items with
  | nil => intro s h; simp [runPool, countStops, countTasks]
  | cons i rest ih =>
    intro s h
    cases i with
    | stop =>
      have h1 : countStops (QItem.stop :: rest) = countStops rest + 1 := by
        simp [countStops, List.countP_cons]
      have h2 : countTasks (QItem.stop :: rest) = countTasks rest := by
        simp [countTasks, List.countP_cons]
      rw [h1] at h
      have hne : s.liveWorkers ≠ 0 := by omega
      rw [runPool_cons exec _ _ s hne, consume_stop]
      obtain ⟨e1, e2⟩ := ih { s with liveWorkers := s.liveWorkers - 1 }
        (by show countStops rest < s.liveWorkers - 1; omega)
      constructor
      · rw [h2, e1]
      · rw [h1, e2]; show s.liveWorkers - 1 - countStops rest = _; omega
    | task t =>
      have h1 : countStops (QItem.task t :: rest) = countStops rest := by
        simp [countStops, List.countP_cons]
      have h2 : countTasks (QItem.task t :: rest) = countTasks rest + 1 := by
        simp [countTasks, List.countP_cons]
      rw [h1] at h
      have hne : s.liveWorkers ≠ 0 := by omega
      rw [runPool_cons exec _ _ s hne]
      obtain ⟨e1, e2⟩ := ih (consume exec (QItem.task t) s)
        (by rw [consume_task_liveWorkers]; omega)
      constructor
      · rw [h2, e1, consume_task_unfinished]; omega
      · rw [h1, e2, consume_task_liveWorkers]

/-- Claim C2: for a queue of tasks only (no sentinels), with at least one
live worker, the drain executes every enqueued task exactly once and in
order, the two counters together grow by exactly the number of tasks
enqueued, and the queue's unfinished count reaches 0 — no task is lost,
duplicated or requeued.  `exec` is arbitrary: it holds whatever mix of
the dispatches succeed or raise. -/
theorem queue_drain_exactly_once (exec : Task → ExecOutcome) (ts : List Task)
    (s : PoolState) (hlog : s.executedLog = []) (hunf : s.unfinished = ts.length)
    (hlive : 1 ≤ s.liveWorkers) :
    (runPool exec (ts.map QItem.task) s).executedLog = ts ∧
    (runPool exec (ts.map QItem.task) s).metrics.tasks_completed +
      (runPool exec (ts.map QItem.task) s).metrics.tasks_failed =
      s.metrics.tasks_completed + s.metrics.tasks_failed + ts.length ∧
    (runPool exec (ts.map QItem.task) s).unfinished = 0 := by
  obtain ⟨e1, e2, e3, _⟩ := runPool_map_task exec ts s hlive
  exact ⟨by rw [e1, hlog]; exact List.nil_append ts,
         e2,
         by rw [e3, hunf]; omega⟩

/-- Two development tasks enqueued on a fresh single-worker pool. -/
def twoTaskPool : PoolState :=
  { workerList := 1, liveWorkers := 1, unfinished := 2,
    metrics := { tasks_completed := 0, tasks_failed := 0, optimization_cycles := 0 },
    executedLog := [] }

theorem queue_drain_exactly_once_witness :
    twoTaskPool.executedLog = [] ∧ twoTaskPool.unfinished = 2 ∧
    (runPool (fun _ => ExecOutcome.ok)
      ([⟨some "development", none, none⟩, ⟨some "testing", none, none⟩].map QItem.task)
      twoTaskPool).executedLog =
      [⟨some "development", none, none⟩, ⟨some "testing", none, none⟩] :=
  ⟨rfl, rfl,
   (queue_drain_exactly_once (fun _ => ExecOutcome.ok)
     [⟨some "development", none, none⟩, ⟨some "testing", none, none⟩]
     twoTaskPool rfl rfl (by decide)).1⟩

theorem scale_down_floor_one_worker_witness :
    1 ≤ fiveWorkerPool.workerList ∧ 2 * ([] : List QItem).length < fiveWorkerPool.workerList ∧
    (optimize_performance [] fiveWorkerPool).2.workerList = 1 :=
  ⟨by decide, by decide,
   (scale_down_floor_one_worker [] fiveWorkerPool (by decide) (by decide) rfl).2.1⟩

/-- Claim C7: a dequeued `None` sentinel terminates exactly one worker —
the live count drops by exactly 1 and nothing is executed or counted —
and `n` sentinels fed to a pool of exactly `n` live workers leave every
worker stopped: zero live workers, metrics and execution trace
untouched. -/
theorem n_stop_signals_stop_all_workers (exec : Task → ExecOutcome) (n : Nat)
    (s : PoolState) (h : s.liveWorkers = n) :
    (runPool exec (List.replicate n QItem.stop) s).liveWorkers = 0 ∧
    (runPool exec (List.replicate n QItem.stop) s).metrics = s.metrics ∧
    (runPool exec (List.replicate n QItem.stop) s).executedLog = s.executedLog ∧
    ∀ s' : PoolState, 1 ≤ s'.liveWorkers →
      (consume exec QItem.stop s').liveWorkers + 1 = s'.liveWorkers ∧
      (consume exec QItem.stop s').metrics = s'.metrics ∧
      (consume exec QItem.stop s').executedLog = s'.executedLog := by
  rw [runPool_replicate_stop exec n s h]
  refine ⟨rfl, rfl, rfl, ?_⟩
  intro s' h'
  rw [consume_stop]
  exact ⟨by show s'.liveWorkers - 1 + 1 = s'.liveWorkers; omega, rfl, rfl⟩

/-- A pool of two live workers with empty bookkeeping. -/
def twoWorkerPool : PoolState :=
  { workerList := 2, liveWorkers := 2, unfinished := 2,
    metrics := { tasks_completed := 0, tasks_failed := 0, optimization_cycles := 0 },
    executedLog := [] }

theorem n_stop_signals_stop_all_workers_witness :
    twoWorkerPool.liveWorkers = 2 ∧
    (runPool (fun _ => ExecOutcome.ok)
      (List.replicate 2 QItem.stop) twoWorkerPool).liveWorkers = 0 :=
  ⟨rfl, (n_stop_signals_stop_all_workers (fun _ => ExecOutcome.ok) 2 twoWorkerPool rfl).1⟩

/-- Claim C10: a task item always gets its `task_done` (success or
failure), but a worker that dequeues a `None` sentinel breaks out of
the loop before the `finally` clause runs, so no `task_done` is issued
for the sentinel.  Hence after a drain that consumed at least one
sentinel, `unfinished_tasks` equals the number of sentinels consumed:
it stays `≥ 1` although no item remains, so `task_queue.join()` —
which waits for `unfinished_tasks == 0` — can never return. -/
theorem stop_sentinel_skips_task_done (exec : Task → ExecOutcome)
    (items : List QItem) (s : PoolState) (t : Task)
    (hstops : 1 ≤ countStops items)
    (hlive : countStops items < s.liveWorkers)
    (hunf : s.unfinished = items.length) :
    (consume exec (QItem.task t) s).unfinished = s.unfinished - 1 ∧
    (consume exec QItem.stop s).unfinished = s.unfinished ∧
    (runPool exec items s).unfinished = countStops items ∧
    1 ≤ (runPool exec items s).unfinished := by
  obtain ⟨e1, _⟩ := runPool_unfinished_live exec items s hlive
  have hct := countTasks_add_countStops items
  refine ⟨consume_task_unfinished exec t s, rfl, ?_, ?_⟩
  · rw [e1, hunf]; omega
  · rw [e1, hunf]; omega

theorem stop_sentinel_skips_task_done_witness :
    1 ≤ countStops [QItem.task ⟨some "development", none, none⟩, QItem.stop] ∧
    countStops [QItem.task ⟨some "development", none, none⟩, QItem.stop] <
      twoWorkerPool.liveWorkers ∧
    (runPool (fun _ => ExecOutcome.ok)
      [QItem.task ⟨some "development", none, none⟩, QItem.stop] twoWorkerPool).unfinished = 1 :=
  ⟨by decide, by decide,
   by
    have h := stop_sentinel_skips_task_done (fun _ => ExecOutcome.ok)
      [QItem.task ⟨some "development", none, none⟩, QItem.stop] twoWorkerPool
      ⟨some "development", none, none⟩ (by decide) (by decide) rfl
    rw [h.2.2.1]; decide⟩

/-- Claim C6: when the dispatch of a task raises, the worker's `except`
arm increments `tasks_failed` by exactly 1 and leaves `tasks_completed`
alone, the `finally` arm still issues `task_done`, the worker stays
alive, and the loop goes on to dequeue the rest of the queue — the
failure never propagates out of the loop. -/
theorem failed_task_worker_continues (exec : Task → ExecOutcome) (t : Task)
    (e : String) (rest : List QItem) (s : PoolState)
    (hx : exec t = ExecOutcome.raised e) (hlive : 1 ≤ s.liveWorkers) :
    (consume exec (QItem.task t) s).metrics.tasks_failed = s.metrics.tasks_failed + 1 ∧
    (consume exec (QItem.task t) s).metrics.tasks_completed = s.metrics.tasks_completed ∧
    (consume exec (QItem.task t) s).unfinished = s.unfinished - 1 ∧
    (consume exec (QItem.task t) s).liveWorkers = s.liveWorkers ∧
    runPool exec (QItem.task t :: rest) s =
      runPool exec rest (consume exec (QItem.task t) s) := by
  have hc := consume_task_raised exec t s e hx
  refine ⟨by rw [hc], by rw [hc], by rw [hc], by rw [hc], ?_⟩
  exact runPool_cons exec _ rest s (by omega)

theorem failed_task_worker_continues_witness :
    (fun _ : Task => ExecOutcome.raised "boom") ⟨some "testing", none, none⟩ =
      ExecOutcome.raised "boom" ∧
    (consume (fun _ => ExecOutcome.raised "boom")
      (QItem.task ⟨some "testing", none, none⟩) twoTaskPool).metrics.tasks_failed = 1 :=
  ⟨rfl,
   by
    have h := failed_task_worker_continues (fun _ => ExecOutcome.raised "boom")
      ⟨some "testing", none, none⟩ "boom" [] twoTaskPool rfl (by decide)
    rw [h.1]; rfl⟩

lemma sync_with_github_ok (env : SyncEnv) (t : Task) :
    sync_with_github env t = ExecOutcome.ok := by
  unfold sync_with_github
  split
  · cases syncTryBody env <;> rfl
  · rfl

lemma execute_task_ok (env : SyncEnv) (t : Task) :
    execute_task env t = ExecOutcome.ok := by
  unfold execute_task
  split_ifs <;> first | rfl | exact sync_with_github_ok env t

/-- Claim C5: a task whose type matches none of the six `elif` branches
falls through `execute_task` as a no-op without raising, so the worker
counts it by incrementing `tasks_completed`, never `tasks_failed`. -/
theorem unknown_kind_counted_completed (env : SyncEnv) (t : Task) (s : PoolState)
    (h : t.type ∉ ([some "development", some "code_review", some "testing",
        some "deployment", some "github_sync", some "monitoring"] :
        List (Option String))) :
    execute_task env t = ExecOutcome.ok ∧
    (consume (execute_task env) (QItem.task t) s).metrics.tasks_completed =
      s.metrics.tasks_completed + 1 ∧
    (consume (execute_task env) (QItem.task t) s).metrics.tasks_failed =
      s.metrics.tasks_failed := by
  simp only [List.mem_cons, List.not_mem_nil, or_false, not_or] at h
  obtain ⟨h1, h2, h3, h4, h5, h6⟩ := h
  have hok : execute_task env t = ExecOutcome.ok := by
    unfold execute_task
    rw [if_neg h2, if_neg h3, if_neg h4, if_neg h5, if_neg h6, if_neg h1]
  have hc := consume_task_ok (execute_task env) t s hok
  exact ⟨hok, by rw [hc], by rw [hc]⟩

theorem unknown_kind_counted_completed_witness :
    (some "quantum_refactor" ∉ ([some "development", some "code_review", some "testing",
        some "deployment", some "github_sync", some "monitoring"] :
        List (Option String))) ∧
    (consume (execute_task ⟨false, "", false, false, false⟩)
      (QItem.task ⟨some "quantum_refactor", none, none⟩) freshPool).metrics.tasks_completed = 1 :=
  ⟨by decide,
   by
    have h := unknown_kind_counted_completed ⟨false, "", false, false, false⟩
      ⟨some "quantum_refactor", none, none⟩ freshPool (by decide)
    rw [h.2.1]; rfl⟩

/-- The environment of the C1 scenario: the GitHub manager is available,
`origin` is configured, and `push_changes` raises `CalledProcessError`
because the remote is unreachable (`git push` run with `check=True`
fails, `github_manager.py` lines 50-54). -/
def envPushFail : SyncEnv :=
  { githubManagerAvailable := true, gitRemoteStdout := "origin",
    gitRemoteRaises := false, pushChangesRaises := true, gitPushRaises := false }

/-- A `github_sync` task dict as enqueued by `update_status_log`. -/
def syncTask : Task :=
  { type := some "github_sync", repoPath := some "/root/InsightFactory", remoteUrl := none }

/-- A single-worker pool with the one sync task enqueued. -/
def poolC1 : PoolState :=
  { workerList := 1, liveWorkers := 1, unfinished := 1,
    metrics := { tasks_completed := 0, tasks_failed := 0, optimization_cycles := 0 },
    executedLog := [] }

/-- Claim C1 is false on the code: with the remote unreachable
(`push_changes` raises), the `except` clause inside `sync_with_github`
itself swallows the exception, so the worker sees a normal return:
`tasks_failed` stays 0 instead of being incremented to 1, and
`tasks_completed` — which the claim says is unchanged — becomes 1. -/
theorem githubSync_push_failure_counterexample :
    envPushFail.pushChangesRaises = true ∧
    syncTryBody envPushFail = ExecOutcome.raised "push_changes: CalledProcessError" ∧
    (consume (execute_task envPushFail) (QItem.task syncTask) poolC1).metrics.tasks_failed
      = 0 ∧
    (consume (execute_task envPushFail) (QItem.task syncTask) poolC1).metrics.tasks_completed
      = 1 ∧
    ¬ ((consume (execute_task envPushFail) (QItem.task syncTask) poolC1).metrics.tasks_failed
        = poolC1.metrics.tasks_failed + 1 ∧
       (consume (execute_task envPushFail) (QItem.task syncTask) poolC1).metrics.tasks_completed
        = poolC1.metrics.tasks_completed) := by
  refine ⟨rfl, rfl, rfl, rfl, ?_⟩
  intro hcontra
  exact absurd hcontra.1 (by decide)

/-- Claim C1 as amended: when the remote push fails during a
`github_sync` task, the exception raised by `push_changes` is caught
inside `sync_with_github` itself, so the worker records the task as
COMPLETED: `tasks_completed` grows by 1, `tasks_failed` is unchanged,
and the worker stays alive and proceeds to the next dequeue. -/
theorem githubSync_push_failure_swallowed (env : SyncEnv) (t : Task)
    (rest : List QItem) (s : PoolState)
    (hpush : env.pushChangesRaises = true)
    (htype : t.type = some "github_sync")
    (hlive : 1 ≤ s.liveWorkers) :
    (∃ e, syncTryBody env = ExecOutcome.raised e) ∧
    execute_task env t = ExecOutcome.ok ∧
    (consume (execute_task env) (QItem.task t) s).metrics.tasks_completed =
      s.metrics.tasks_completed + 1 ∧
    (consume (execute_task env) (QItem.task t) s).metrics.tasks_failed =
      s.metrics.tasks_failed ∧
    (consume (execute_task env) (QItem.task t) s).liveWorkers = s.liveWorkers ∧
    runPool (execute_task env) (QItem.task t :: rest) s =
      runPool (execute_task env) rest (consume (execute_task env) (QItem.task t) s) := by
  have hraise : ∃ e, syncTryBody env = ExecOutcome.raised e := by
    unfold syncTryBody
    by_cases hg : env.gitRemoteRaises = true
    · exact ⟨_, by rw [if_pos hg]⟩
    · exact ⟨_, by rw [if_neg hg, if_pos hpush]⟩
  have hok : execute_task env t = ExecOutcome.ok := by
    unfold execute_task
    rw [htype, if_neg (by decide), if_neg (by decide), if_neg (by decide),
      if_pos (by decide)]
    exact sync_with_github_ok env t
  have hc := consume_task_ok (execute_task env) t s hok
  refine ⟨hraise, hok, by rw [hc], by rw [hc], by rw [hc], ?_⟩
  exact runPool_cons _ _ rest s (by omega)

theorem githubSync_push_failure_swallowed_witness :
    envPushFail.pushChangesRaises = true ∧ syncTask.type = some "github_sync" ∧
    (consume (execute_task envPushFail) (QItem.task syncTask) poolC1).metrics.tasks_completed
      = 1 :=
  ⟨rfl, rfl,
   by
    have h := githubSync_push_failure_swallowed envPushFail syncTask [] poolC1
      rfl rfl (by decide)
    rw [h.2.2.1]; rfl⟩

end EnhancedAutonomousTeam
